import Mathlib

/-!
Verification of the devotional Bible-reading app against its design
specification.  The definitions below are a shallow embedding of the
TypeScript sources: the constants module (reading plan and daily-reading
selection), the Gemini service module (image-generation fallback chain and
per-call-site error handling), the localStorage-backed sync service
(archived readings and meditation status), and the diary / reading
components (saving entries, reading-content cache).
-/

namespace BibleApp

/-! ## Reading plan (src/App.tsx constants module) -/

inductive Language where
  | ko
  | en
deriving DecidableEq

structure BookName where
  ko : String
  en : String
deriving DecidableEq

structure Epistle where
  book : BookName
  chapters : Nat
deriving DecidableEq

/-- Embedding of `PAULINE_EPISTLES` from the constants module: the fixed list of epistles
with their chapter counts, in source order. -/
def PAULINE_EPISTLES : List Epistle := [
  ⟨⟨"갈라디아서", "Galatians"⟩, 6⟩,
  ⟨⟨"데살로니가전서", "1 Thessalonians"⟩, 5⟩,
  ⟨⟨"데살로니가후서", "2 Thessalonians"⟩, 3⟩,
  ⟨⟨"고린도전서", "1 Corinthians"⟩, 16⟩,
  ⟨⟨"고린도후서", "2 Corinthians"⟩, 13⟩,
  ⟨⟨"로마서", "Romans"⟩, 16⟩,
  ⟨⟨"골로새서", "Colossians"⟩, 4⟩,
  ⟨⟨"빌레몬서", "Philemon"⟩, 1⟩,
  ⟨⟨"에베소서", "Ephesians"⟩, 6⟩,
  ⟨⟨"빌립보서", "Philippians"⟩, 4⟩,
  ⟨⟨"디모데전서", "1 Timothy"⟩, 6⟩,
  ⟨⟨"디도서", "Titus"⟩, 3⟩,
  ⟨⟨"디모데후서", "2 Timothy"⟩, 4⟩]

structure ReadingPlanItem where
  book : BookName
  chapter : Nat
deriving DecidableEq

/-- Embedding of `generateReadingPlan` from the constants module: a forEach over the
epistles pushing one item per chapter from 1 up to the chapter count; the
fold accumulator mirrors the imperative push loop. -/
def generateReadingPlan : List ReadingPlanItem :=
  PAULINE_EPISTLES.foldl
    (fun plan e => plan ++ (List.range e.chapters).map (fun i => ⟨e.book, i + 1⟩)) []

/-- Embedding of `readingPlan`, computed once at module load. -/
def readingPlan : List ReadingPlanItem := generateReadingPlan

/-- Embedding of `totalChapters = readingPlan.length`. -/
def totalChapters : Nat := readingPlan.length

/-! ## Daily reading selection (src/App.tsx)

A JS `Date` is modelled as a local calendar date plus a time of day; its
timestamp is taken in a fixed-offset timezone model (offset normalized to
zero), so the local midnight of a date sits at `civil day number × 86400000`
milliseconds.  `daysFromCivil` is the standard proleptic-Gregorian
civil-date-to-day-number conversion. -/

def daysFromCivil (y : Int) (m d : Nat) : Int :=
  let y1 : Int := if m ≤ 2 then y - 1 else y
  let era : Int := Int.fdiv y1 400
  let yoe : Int := y1 - era * 400
  let mp : Int := if 2 < m then (m : Int) - 3 else (m : Int) + 9
  let doy : Int := (153 * mp + 2) / 5 + (d : Int) - 1
  let doe : Int := yoe * 365 + yoe / 4 - yoe / 100 + doy
  era * 146097 + doe - 719468

/-- Embedding of `const oneDay = 1000 * 60 * 60 * 24`. -/
def oneDay : Int := 1000 * 60 * 60 * 24

structure LocalDate where
  year : Int
  month : Nat
  day : Nat
deriving DecidableEq

/-- A `Date` value as the app uses it: local calendar date plus milliseconds
into the day. -/
structure DateTime where
  date : LocalDate
  msInDay : Nat
deriving DecidableEq

/-- Timestamp in ms of the local midnight of a date — what
`setHours(0,0,0,0)` followed by `getTime()` yields in the fixed-offset
timezone model. -/
def localMidnightMs (d : LocalDate) : Int :=
  daysFromCivil d.year d.month d.day * oneDay

/-- Embedding of `SCHEDULE_START_DATE = new Date(2024, 6, 27)` (month 6 is July), at local
midnight: July 27, 2024. -/
def SCHEDULE_START_DATE_ms : Int := localMidnightMs ⟨2024, 7, 27⟩

structure Reading where
  book : String
  chapter : Nat
deriving DecidableEq

/-- Selecting the per-language book name, `item.book[language]`. -/
def bookIn (language : Language) (b : BookName) : String :=
  match language with
  | .ko => b.ko
  | .en => b.en

def defaultItem : ReadingPlanItem := ⟨⟨"", ""⟩, 0⟩

/-- Embedding of `getDailyReading` from the constants module: zero the time of day, take
the floor of the elapsed ms since the schedule start divided by one day,
clamp below at 0, and index the reading plan at `(day*2) % total` and the
following slot. -/
def getDailyReading (now : DateTime) (language : Language) : Reading × Reading :=
  let currentMs : Int := localMidnightMs now.date
  let dayRaw : Int := Int.fdiv (currentMs - SCHEDULE_START_DATE_ms) oneDay
  let dayOfSchedule : Int := if dayRaw < 0 then 0 else dayRaw
  let startIndex : Nat := (dayOfSchedule * 2).toNat % totalChapters
  let firstChapterItem := readingPlan.getD startIndex defaultItem
  let secondChapterItem := readingPlan.getD ((startIndex + 1) % totalChapters) defaultItem
  (⟨bookIn language firstChapterItem.book, firstChapterItem.chapter⟩,
   ⟨bookIn language secondChapterItem.book, secondChapterItem.chapter⟩)

/-- The number of whole local days elapsed since July 27, 2024, clamped
below at 0 (`Int.toNat` clamps negatives to 0). -/
def wholeDaysSinceStart (d : LocalDate) : Nat :=
  (daysFromCivil d.year d.month d.day - daysFromCivil 2024 7 27).toNat

/-! ## Gemini service: image generation (geminiService module)

The generative-model client is modelled as an environment: `imageCalls` maps
the index of each image-model call (in the order the calls are made) to its
outcome, and the single fallback-prompt text call has its own outcome.  A
state threaded through the calls records which prompt each call used and
every delay awaited, so that retry counts, delays and prompt order are
observable in the trace. -/

/-- The transient-error substring tested by `errorMessage.includes(...)`. -/
def transientErrorSubstr : String := "Rpc failed due to xhr error"

def listPrefixOf : List Char → List Char → Bool
  | [], _ => true
  | _ :: _, [] => false
  | a :: as, b :: bs => a == b && listPrefixOf as bs

def containsSubAux (pat : List Char) : List Char → Bool
  | [] => listPrefixOf pat []
  | c :: rest => listPrefixOf pat (c :: rest) || containsSubAux pat rest

/-- JS `s.includes(pat)`: `pat` occurs as a contiguous substring of `s`. -/
def containsSubstring (s pat : String) : Bool :=
  containsSubAux pat.toList s.toList

/-- JS `s.trim()`: strip whitespace from both ends (over the character
list, so that it evaluates by kernel reduction). -/
def jsTrim (s : String) : String :=
  ⟨((s.toList.dropWhile Char.isWhitespace).reverse.dropWhile Char.isWhitespace).reverse⟩

/-- Outcome of one image-model call: prompt feedback with a block reason, a
response with inline image data, a response with no image part, or a thrown
error (given by its JSON serialization `JSON.stringify(error)`). -/
inductive ImageCallResult where
  | blocked (reason : String)
  | image (data : String)
  | noImage
  | throws (errJson : String)
deriving DecidableEq

def MAX_RETRIES : Nat := 3

/-- Trace state threaded through image-model calls: the index of the next
call in the environment, the prompt of every call made so far, and every
delay (in ms) awaited so far. -/
structure ImageGenState where
  nextCall : Nat
  prompts : List String
  delays : List Nat
deriving DecidableEq

/-- The `while (attempt < MAX_RETRIES)` retry loop of the inner
`generateImage` helper of `generateContextImage`: a blocked prompt, a
response without image data, or a non-transient thrown error returns null
at once; image data returns the data URI; a thrown error containing the
transient substring increments `attempt`, gives up when
`attempt >= MAX_RETRIES`, and otherwise awaits `attempt * 1000` ms and
retries. -/
def generateImageLoop (env : Nat → ImageCallResult) (p : String) (attempt : Nat)
    (st : ImageGenState) : Option String × ImageGenState :=
  if _h : attempt < MAX_RETRIES then
    let st1 : ImageGenState := ⟨st.nextCall + 1, st.prompts ++ [p], st.delays⟩
    match env st.nextCall with
    | .blocked _ => (none, st1)
    | .image d => (some ("data:image/png;base64," ++ d), st1)
    | .noImage => (none, st1)
    | .throws e =>
      if containsSubstring e transientErrorSubstr then
        if MAX_RETRIES ≤ attempt + 1 then (none, st1)
        else generateImageLoop env p (attempt + 1)
          ⟨st1.nextCall, st1.prompts, st1.delays ++ [(attempt + 1) * 1000]⟩
      else (none, st1)
  else (none, st)
termination_by MAX_RETRIES - attempt
decreasing_by
  simp_wf
  omega

/-- Embedding of `generateImage(p)`: the retry loop started at attempt 0. -/
def generateImage (env : Nat → ImageCallResult) (p : String) (st : ImageGenState) :
    Option String × ImageGenState :=
  generateImageLoop env p 0 st

def detailedPromptPrefix_en : String :=
  "Create a symbolic and evocative image in the style of a classical oil painting with dramatic chiaroscuro lighting. The scene should be highly symbolic, avoiding any literal depictions of people or divine figures. Focus on objects, nature, and light to convey the core theme. The subject is: "

def detailedPromptPrefix_ko : String :=
  "클래식 유화 스타일로, 극적인 명암 대비(키아로스쿠로) 조명을 사용하여 상징적이고 감성적인 이미지를 만들어주세요. 장면은 매우 상징적이어야 하며, 사람이나 신적인 인물의 직접적인 묘사는 피해야 합니다. 사물, 자연, 빛에 초점을 맞춰 핵심 주제를 전달해주세요. 주제는 다음과 같습니다: "

/-- Embedding of `getPrompts(language).imageFallback`: the hard-coded static fallback
prompt for each language. -/
def imageFallback : Language → String
  | .ko => "고대 중동의 평화로운 풍경. 올리브 나무와 돌길이 있는 언덕의 사실적인 유화."
  | .en => "A peaceful landscape in the ancient Middle East. A realistic oil painting of a hill with olive trees and a stone path."

/-- The prompt of the second text-model call, built from the fallback
context. -/
def fallbackPromptGenerator (language : Language) (fallbackContext : String) : String :=
  match language with
  | .en => "Based on the following theological text, create a short, simple, safe-for-work image prompt for a symbolic oil painting. The prompt must NOT include people, faces, or religious figures. Focus on objects and nature. Text: \"" ++ fallbackContext ++ "\""
  | .ko => "다음 신학적인 글을 바탕으로, 상징적인 유화를 위한 짧고, 간단하며, 안전한 이미지 프롬프트를 만들어 주세요. 프롬프트에는 사람, 얼굴, 또는 종교적 인물이 포함되어서는 안 됩니다. 사물과 자연에 초점을 맞춰주세요. 글: \"" ++ fallbackContext ++ "\""

/-- The final prompt of stage 2, wrapping the context-derived prompt. -/
def symbolicFinalPrompt (language : Language) (newPrompt : String) : String :=
  match language with
  | .en => "A symbolic oil painting of: " ++ newPrompt
  | .ko => "상징적인 유화: " ++ newPrompt

/-- Outcome of the single fallback-prompt text-model call: a thrown error or
a response whose `text` is the given string. -/
inductive TextCallResult where
  | throws (e : String)
  | ok (text : String)
deriving DecidableEq

structure GenerateContextImageParams where
  initialPrompt : String
  fallbackContext : String
  language : Language

structure ContextImageEnv where
  imageCalls : Nat → ImageCallResult
  fallbackPromptCall : TextCallResult

/-- Result of `generateContextImage` together with its observable trace:
the returned url, the final image-call state (call count, prompts, delays),
and the prompt of the text-model call when one was made. -/
structure ContextImageTrace where
  result : Option String
  finalState : ImageGenState
  textCallPrompt : Option String
deriving DecidableEq

def initImageGenState : ImageGenState := ⟨0, [], []⟩

/-- Embedding of `generateContextImage` from the geminiService module: (1) try the
detailed language-specific prefix concatenated with the initial prompt;
(2) if that produced no url, ask the text model for a context-derived
prompt from the fallback context and, when the trimmed reply is non-empty,
try the wrapped prompt; (3) if there is still no url, try the static
fallback prompt; return whatever url resulted, or null. -/
def generateContextImage (params : GenerateContextImageParams) (env : ContextImageEnv) :
    ContextImageTrace :=
  let firstAttemptPrompt :=
    match params.language with
    | .en => detailedPromptPrefix_en ++ params.initialPrompt
    | .ko => detailedPromptPrefix_ko ++ params.initialPrompt
  let r1 := generateImage env.imageCalls firstAttemptPrompt initImageGenState
  match r1.1 with
  | some u => ⟨some u, r1.2, none⟩
  | none =>
    let textPrompt := fallbackPromptGenerator params.language params.fallbackContext
    let second : Option String × ImageGenState :=
      match env.fallbackPromptCall with
      | .throws _ => (none, r1.2)
      | .ok t =>
        let newPrompt := jsTrim t
        if newPrompt ≠ "" then
          generateImage env.imageCalls (symbolicFinalPrompt params.language newPrompt) r1.2
        else (none, r1.2)
    match second.1 with
    | some u => ⟨some u, second.2, some textPrompt⟩
    | none =>
      let r3 := generateImage env.imageCalls (imageFallback params.language) second.2
      ⟨r3.1, r3.2, some textPrompt⟩

/-- Spec-side definition, following the claim wording: image generation is
attempted in a fixed order, stopping at the first success — (1) the
detailed language-specific prefix concatenated with the initial prompt;
(2) if that yields no image, a context-derived prompt produced by a second
text-model call, used only when non-empty; (3) if that also yields no
image, the hard-coded static fallback prompt; if all three fail, null. -/
def fallbackChainSpec (params : GenerateContextImageParams) (env : ContextImageEnv) :
    Option String :=
  let stage1 := generateImage env.imageCalls
    ((match params.language with
      | .en => detailedPromptPrefix_en
      | .ko => detailedPromptPrefix_ko) ++ params.initialPrompt) initImageGenState
  match stage1.1 with
  | some u => some u
  | none =>
    let stage2 : Option (Option String × ImageGenState) :=
      match env.fallbackPromptCall with
      | .ok t =>
        if jsTrim t ≠ "" then
          some (generateImage env.imageCalls (symbolicFinalPrompt params.language (jsTrim t)) stage1.2)
        else none
      | .throws _ => none
    match stage2 with
    | some (some u, _) => some u
    | some (none, st2) => (generateImage env.imageCalls (imageFallback params.language) st2).1
    | none => (generateImage env.imageCalls (imageFallback params.language) stage1.2).1

/-! ## Sync service: localStorage-backed keyed records (syncService module)

A JS object keyed by day numbers is modelled as an association list with
unique keys in property order.  `recordSet` is the object-spread update
`{...all, [day]: data}` (an existing key keeps its slot with the new value,
a new key is appended), `recordErase` is `delete rec[day]`, and
`recordLookup` is property access. -/

def recordLookup {α : Type} : List (Nat × α) → Nat → Option α
  | [], _ => none
  | (k, v) :: rest, key => if k = key then some v else recordLookup rest key

def recordSet {α : Type} : List (Nat × α) → Nat → α → List (Nat × α)
  | [], key, v => [(key, v)]
  | (k, w) :: rest, key, v =>
    if k = key then (k, v) :: rest else (k, w) :: recordSet rest key v

def recordErase {α : Type} : List (Nat × α) → Nat → List (Nat × α)
  | [], _ => []
  | (k, v) :: rest, key =>
    if k = key then recordErase rest key else (k, v) :: recordErase rest key

/-- Embedding of `ArchivedReading` from the types module. -/
structure ArchivedReading where
  day : Nat
  dateSaved : String
  readingReference : String
  passage : String
  meditationGuide : String
  context : String
  intention : String
  contextImageUrl : Option String
deriving DecidableEq

abbrev ArchiveStore := List (Nat × ArchivedReading)

/-- Embedding of `saveArchivedReading` from syncService: read all archived readings,
spread them with `[day]: readingData`, and write the result back. -/
def saveArchivedReading (store : ArchiveStore) (day : Nat)
    (readingData : ArchivedReading) : ArchiveStore :=
  recordSet store day readingData

/-- Embedding of `MeditationStatus` from syncService: the fixed three-value
enumeration. -/
inductive MeditationStatus where
  | good
  | ok
  | bad
deriving DecidableEq

abbrev MeditationRecord := List (Nat × MeditationStatus)

/-- Embedding of `handleStatusChange` from the BibleReading component: copy the record;
when the day's current status equals the clicked status delete the entry,
otherwise set it; then persist. -/
def handleStatusChange (m : MeditationRecord) (day : Nat)
    (status : MeditationStatus) : MeditationRecord :=
  if recordLookup m day = some status then recordErase m day
  else recordSet m day status

/-- A sample archived reading used in closed witness statements. -/
def sampleArchived (n : Nat) : ArchivedReading :=
  ⟨n, "2024-07-27", "Galatians 1-2", "passage", "guide", "context", "intention", none⟩

/-! ## Faith diary and mission plans (FaithDiary component, syncService) -/

structure DiaryEntry where
  repentance : String
  resolve : String
  dream : String
deriving DecidableEq

structure SavedDiaryEntry where
  id : Nat
  timestamp : String
  content : DiaryEntry
deriving DecidableEq

/-- Embedding of `SavedPlanEntry` from the types module. -/
structure SavedPlanEntry where
  id : Nat
  timestamp : String
  content : String
deriving DecidableEq

structure DiaryState where
  currentEntry : DiaryEntry
  savedEntries : List SavedDiaryEntry
deriving DecidableEq

/-- The empty-entry guard of the diary `handleSave`: all three fields blank
after trimming. -/
def diaryEntryEmpty (e : DiaryEntry) : Bool :=
  (jsTrim e.repentance) == "" && (jsTrim e.resolve) == "" && (jsTrim e.dream) == ""

/-- Embedding of `handleSave` from the FaithDiary component: do nothing when every field
is blank; otherwise build the new entry from the current timestamp
(`Date.now()`), the locale time string and the current draft, prepend it to
the saved list, clear the draft, and persist the new list whole via
`saveDiaryEntries`. -/
def handleSave (st : DiaryState) (now : Nat) (timeStr : String) : DiaryState :=
  if diaryEntryEmpty st.currentEntry then st
  else
    { currentEntry := ⟨"", "", ""⟩,
      savedEntries := ⟨now, timeStr, st.currentEntry⟩ :: st.savedEntries }

structure MissionState where
  currentPlan : String
  savedEntries : List SavedPlanEntry
deriving DecidableEq

/-- Embedding of `handleSave` from the EvangelismMission component (the
second document of SermonOutline.tsx): return unchanged when the plan text
is blank after trimming; otherwise build the new entry from the current
timestamp (`Date.now()`), the locale time string and the plan text,
prepend it to the saved list, clear the textarea, and persist the new list
whole via `saveMissionPlans`. -/
def missionHandleSave (st : MissionState) (now : Nat) (timeStr : String) : MissionState :=
  if jsTrim st.currentPlan = "" then st
  else
    { currentPlan := "",
      savedEntries := ⟨now, timeStr, st.currentPlan⟩ :: st.savedEntries }

/-! ## Gemini service: per-call-site error handling (geminiService module)

Each text-generation entry point makes a single model call inside one
try/catch; the environment maps the call index to the call's outcome, and
each function returns its result together with the number of calls made,
so that the absence of retries is observable.  For the JSON-schema
endpoints the successful response is modelled already parsed, with `none`
standing for an empty or blocked response. -/

structure Song where
  title : String
  artist : String
deriving DecidableEq

structure StoryKeywords where
  positive : List String
  sin : List String
  hope : List String
deriving DecidableEq

inductive CallResult (α : Type) where
  | throws (e : String)
  | ok (val : α)
deriving DecidableEq

/-- Embedding of `getPrompts(language).prayerGuideError`. -/
def prayerGuideError : Language → String
  | .ko => "기도문 생성에 실패했습니다. 잠시 후 다시 시도해 주세요."
  | .en => "Failed to generate prayer guide. Please try again later."

/-- Embedding of `getPrompts(language).sermonOutlineError`. -/
def sermonOutlineError : Language → String
  | .ko => "설교 개요 생성에 실패했습니다. 잠시 후 다시 시도해 주세요."
  | .en => "Failed to generate sermon outline. Please try again later."

/-- Embedding of `getPrompts(language).evangelismTipsError`. -/
def evangelismTipsError : Language → String
  | .ko => "전도 팁 생성에 실패했습니다. 잠시 후 다시 시도해 주세요."
  | .en => "Failed to generate evangelism tips. Please try again later."

/-- Embedding of `generatePrayerGuide`: one model call, returning `response.text` on
success and the language-localized error string when the call throws. -/
def generatePrayerGuide (language : Language) (env : Nat → CallResult String) :
    String × Nat :=
  match env 0 with
  | .ok t => (t, 1)
  | .throws _ => (prayerGuideError language, 1)

/-- Embedding of `generateSermonOutline`: one model call, localized error string on a
thrown error. -/
def generateSermonOutline (language : Language) (env : Nat → CallResult String) :
    String × Nat :=
  match env 0 with
  | .ok t => (t, 1)
  | .throws _ => (sermonOutlineError language, 1)

/-- Embedding of `generateEvangelismTips`: one model call, localized error string on a
thrown error. -/
def generateEvangelismTips (language : Language) (env : Nat → CallResult String) :
    String × Nat :=
  match env 0 with
  | .ok t => (t, 1)
  | .throws _ => (evangelismTipsError language, 1)

/-- Embedding of `recommendMusic`: one JSON-schema model call; a parsed response yields
its songs (or `[]` when the `songs` field is missing — folded into the
parsed payload), an empty or blocked response yields `[]`, and a thrown
error yields `[]`. -/
def recommendMusic (_language : Language)
    (env : Nat → CallResult (Option (List Song))) : List Song × Nat :=
  match env 0 with
  | .ok (some songs) => (songs, 1)
  | .ok none => ([], 1)
  | .throws _ => ([], 1)

/-- Embedding of `generateStoryKeywords`: one JSON-schema model call; an empty or blocked
response and a thrown error both yield null. -/
def generateStoryKeywords (_language : Language)
    (env : Nat → CallResult (Option StoryKeywords)) : Option StoryKeywords × Nat :=
  match env 0 with
  | .ok (some k) => (some k, 1)
  | .ok none => (none, 1)
  | .throws _ => (none, 1)

/-! ## Reading-content cache (BibleReading component, `fetchContent`)

The localStorage cache is modelled as a map from key strings to parsed
cache records; the comprehensive-reading API call has a single outcome.
The trace records what was served, whether the text-generation call was
made, whether (and with which prompt and fallback context) image
generation was started, and what was written to the cache. -/

/-- Embedding of `CachedReadingData` from the BibleReading component. -/
structure CachedReadingData where
  passage : String
  meditationGuide : String
  context : String
  intention : String
  imagePrompt : String
  contextImageUrl : Option String
deriving DecidableEq

/-- The payload of `generateComprehensiveReadingContent`. -/
structure ComprehensiveData where
  passage : String
  meditationGuide : String
  context : String
  intention : String
  imagePrompt : String
deriving DecidableEq

def langCode : Language → String
  | .ko => "ko"
  | .en => "en"

/-- The cache key `reading-cache-<date>-<language>`, where the date string
is the current calendar date `YYYY-MM-DD`. -/
def readingCacheKey (dateStr : String) (language : Language) : String :=
  "reading-cache-" ++ dateStr ++ "-" ++ langCode language

inductive ApiOutcome where
  | throws (e : String)
  | ok (data : ComprehensiveData)
deriving DecidableEq

inductive FetchResult where
  | served (passage meditationGuide context intention : String)
  | failed (errorMessage : String)
deriving DecidableEq

structure FetchTrace where
  result : FetchResult
  textApiCalled : Bool
  imageGenStarted : Option (String × String)
  cacheWrite : Option (String × CachedReadingData)
deriving DecidableEq

/-- Embedding of `t('apiQuotaExceeded')`. -/
def apiQuotaExceededMsg : Language → String
  | .ko => "API 요청 할당량이 초과되었습니다. 나중에 다시 시도해 주세요. 이 메시지가 계속되면 관리자에게 문의하세요."
  | .en => "API request quota has been exceeded. Please try again later. If this message persists, contact the administrator."

/-- Embedding of `t('contentError')`. -/
def contentErrorMsg : Language → String
  | .ko => "콘텐츠를 불러오는 중 오류가 발생했습니다. 네트워크 연결을 확인하고 다시 시도해 주세요."
  | .en => "An error occurred while loading content. Please check your network connection and try again."

/-- Embedding of `fetchContent` from the BibleReading component (cache records modelled
already parsed): on a cache hit serve the cached text fields and start
image generation when the cached `imagePrompt` is non-empty; on a miss
call the comprehensive API — on success serve its fields, start image
generation when its `imagePrompt` is non-empty, and cache the text data
with `contextImageUrl` explicitly null; on a thrown error show the quota
message when the serialized error contains 429 or RESOURCE_EXHAUSTED and
the generic content error otherwise. -/
def fetchContent (cache : String → Option CachedReadingData) (dateStr : String)
    (language : Language) (api : ApiOutcome) : FetchTrace :=
  let cacheKey := readingCacheKey dateStr language
  match cache cacheKey with
  | some cachedData =>
    { result := .served cachedData.passage cachedData.meditationGuide
        cachedData.context cachedData.intention
      textApiCalled := false
      imageGenStarted :=
        if cachedData.imagePrompt ≠ "" then
          some (cachedData.imagePrompt, cachedData.intention)
        else none
      cacheWrite := none }
  | none =>
    match api with
    | .ok d =>
      { result := .served d.passage d.meditationGuide d.context d.intention
        textApiCalled := true
        imageGenStarted :=
          if d.imagePrompt ≠ "" then some (d.imagePrompt, d.intention) else none
        cacheWrite := some (cacheKey,
          ⟨d.passage, d.meditationGuide, d.context, d.intention, d.imagePrompt, none⟩) }
    | .throws e =>
      { result := .failed
          (if containsSubstring e "429" || containsSubstring e "RESOURCE_EXHAUSTED"
            then apiQuotaExceededMsg language
            else contentErrorMsg language)
        textApiCalled := true
        imageGenStarted := none
        cacheWrite := none }

/-! ## Theorems for the reading plan -/

/-- C4: `readingPlan` is the concatenation, in the fixed order of
`PAULINE_EPISTLES`, of one item per chapter from 1 up to each epistle's
chapter count, and its length is 87, the sum of all listed chapter counts. -/
theorem readingPlan_concat_and_length :
    readingPlan =
      PAULINE_EPISTLES.flatMap
        (fun e => (List.range e.chapters).map (fun i => ⟨e.book, i + 1⟩)) ∧
    readingPlan.length = 87 ∧
    (PAULINE_EPISTLES.map Epistle.chapters).sum = 87 := by
  refine ⟨?_, ?_, ?_⟩ <;> rfl

/-- C3: for every date and language, `getDailyReading` returns the pair
`(readingPlan[(d*2) % N], readingPlan[(d*2+1) % N])` with book names
projected to the language, where `N` is the plan length and `d` is the
number of whole local days since July 27, 2024, clamped below at 0; and the
result ignores the time of day. -/
theorem getDailyReading_spec (now : DateTime) (language : Language) :
    (getDailyReading now language =
      (let d := wholeDaysSinceStart now.date
       let first := readingPlan.getD (d * 2 % totalChapters) defaultItem
       let second := readingPlan.getD ((d * 2 + 1) % totalChapters) defaultItem
       (⟨bookIn language first.book, first.chapter⟩,
        ⟨bookIn language second.book, second.chapter⟩))) ∧
    ∀ t : Nat, getDailyReading ⟨now.date, t⟩ language = getDailyReading now language := by
  constructor
  · have hone : oneDay ≠ 0 := by norm_num [oneDay]
    have hsub :
        localMidnightMs now.date - SCHEDULE_START_DATE_ms =
          (daysFromCivil now.date.year now.date.month now.date.day -
            daysFromCivil 2024 7 27) * oneDay := by
      simp only [localMidnightMs, SCHEDULE_START_DATE_ms]
      ring
    have hfdiv :
        Int.fdiv (localMidnightMs now.date - SCHEDULE_START_DATE_ms) oneDay =
          daysFromCivil now.date.year now.date.month now.date.day -
            daysFromCivil 2024 7 27 := by
      rw [hsub, Int.mul_fdiv_cancel _ hone]
    set x : Int :=
      daysFromCivil now.date.year now.date.month now.date.day -
        daysFromCivil 2024 7 27 with hx
    have h87 : totalChapters = 87 := rfl
    have hidx1 :
        ((if Int.fdiv (localMidnightMs now.date - SCHEDULE_START_DATE_ms) oneDay < 0
            then 0
            else Int.fdiv (localMidnightMs now.date - SCHEDULE_START_DATE_ms) oneDay) *
              2).toNat % totalChapters =
          wholeDaysSinceStart now.date * 2 % totalChapters := by
      rw [hfdiv, h87]
      have hw : wholeDaysSinceStart now.date = x.toNat := rfl
      rw [hw]
      split_ifs with h <;> omega
    have hidx2 :
        (wholeDaysSinceStart now.date * 2 % totalChapters + 1) % totalChapters =
          (wholeDaysSinceStart now.date * 2 + 1) % totalChapters := by
      rw [h87]
      omega
    simp only [getDailyReading]
    rw [hidx1, hidx2]
  · intro t
    rfl

/-! ## Theorems for image generation -/

/-- Helper: each attempt sequence advances the call index by at most the
remaining number of attempts. -/
theorem generateImageLoop_nextCall_le (env : Nat → ImageCallResult) (p : String) :
    ∀ fuel attempt st, MAX_RETRIES - attempt ≤ fuel →
      (generateImageLoop env p attempt st).2.nextCall ≤
        st.nextCall + (MAX_RETRIES - attempt) := by
  intro fuel
  induction fuel with
  | zero =>
    intro attempt st hf
    rw [generateImageLoop.eq_def]
    split
    · omega
    · simp
  | succ n ih =>
    intro attempt st hf
    rw [generateImageLoop.eq_def]
    split
    · split
      · dsimp only; omega
      · dsimp only; omega
      · dsimp only; omega
      · split
        · split
          · dsimp only; omega
          · have := ih (attempt + 1)
              ⟨st.nextCall + 1, st.prompts ++ [p], st.delays ++ [(attempt + 1) * 1000]⟩
              (by omega)
            dsimp only at this ⊢
            omega
        · dsimp only; omega
    · dsimp only; omega

/-- C2: within a single `generateImage` attempt sequence, a thrown error
whose JSON serialization contains the transient substring is retried, with
the delay after failed attempt `k` equal to `k * 1000` ms, up to
`MAX_RETRIES = 3` total model calls (three consecutive transient errors
consume exactly 3 calls, await 1000 ms and 2000 ms, and end with null);
any other thrown error, a blocked prompt, or a response without image data
ends the attempt immediately after a single call with null, and image data
ends it immediately with the data URI; no attempt sequence ever makes more
than 3 calls. -/
theorem generateImage_retry_spec (env : Nat → ImageCallResult) (p : String)
    (st : ImageGenState) :
    (∀ e, env st.nextCall = .throws e →
      containsSubstring e transientErrorSubstr = true →
      generateImage env p st =
        generateImageLoop env p 1
          ⟨st.nextCall + 1, st.prompts ++ [p], st.delays ++ [1000]⟩) ∧
    (∀ e1 e2 e3,
      env st.nextCall = .throws e1 →
      containsSubstring e1 transientErrorSubstr = true →
      env (st.nextCall + 1) = .throws e2 →
      containsSubstring e2 transientErrorSubstr = true →
      env (st.nextCall + 2) = .throws e3 →
      containsSubstring e3 transientErrorSubstr = true →
      generateImage env p st =
        (none, ⟨st.nextCall + 3, st.prompts ++ [p, p, p], st.delays ++ [1000, 2000]⟩)) ∧
    (∀ e, env st.nextCall = .throws e →
      containsSubstring e transientErrorSubstr = false →
      generateImage env p st = (none, ⟨st.nextCall + 1, st.prompts ++ [p], st.delays⟩)) ∧
    (∀ r, env st.nextCall = .blocked r →
      generateImage env p st = (none, ⟨st.nextCall + 1, st.prompts ++ [p], st.delays⟩)) ∧
    (env st.nextCall = .noImage →
      generateImage env p st = (none, ⟨st.nextCall + 1, st.prompts ++ [p], st.delays⟩)) ∧
    (∀ d, env st.nextCall = .image d →
      generateImage env p st =
        (some ("data:image/png;base64," ++ d),
         ⟨st.nextCall + 1, st.prompts ++ [p], st.delays⟩)) ∧
    (generateImage env p st).2.nextCall ≤ st.nextCall + MAX_RETRIES := by
  refine ⟨?_, ?_, ?_, ?_, ?_, ?_, ?_⟩
  · intro e he htr
    rw [generateImage, generateImageLoop.eq_def]
    simp [he, htr, MAX_RETRIES]
  · intro e1 e2 e3 h1 t1 h2 t2 h3 t3
    rw [generateImage, generateImageLoop.eq_def]
    simp only [MAX_RETRIES, Nat.zero_lt_succ, dite_true, h1, t1, if_true]
    norm_num
    rw [generateImageLoop.eq_def]
    simp only [MAX_RETRIES, h2, t2]
    norm_num
    rw [generateImageLoop.eq_def]
    simp only [MAX_RETRIES, h3, t3]
    norm_num
  · intro e he htr
    rw [generateImage, generateImageLoop.eq_def]
    simp [he, htr, MAX_RETRIES]
  · intro r hr
    rw [generateImage, generateImageLoop.eq_def]
    simp [hr, MAX_RETRIES]
  · intro hni
    rw [generateImage, generateImageLoop.eq_def]
    simp [hni, MAX_RETRIES]
  · intro d hd
    rw [generateImage, generateImageLoop.eq_def]
    simp [hd, MAX_RETRIES]
  · have := generateImageLoop_nextCall_le env p MAX_RETRIES 0 st (by omega)
    simpa [generateImage] using this

/-- Witness for C2: a concrete all-transient environment makes exactly three
calls with delays 1000 ms and 2000 ms and returns null; a concrete
non-transient error and a concrete image response each end after one
call. -/
theorem generateImage_retry_spec_witness :
    generateImage (fun _ => ImageCallResult.throws "Rpc failed due to xhr error")
        "p" ⟨0, [], []⟩ =
      (none, ⟨3, ["p", "p", "p"], [1000, 2000]⟩) ∧
    generateImage (fun _ => ImageCallResult.throws "quota exceeded") "p" ⟨0, [], []⟩ =
      (none, ⟨1, ["p"], []⟩) ∧
    generateImage (fun _ => ImageCallResult.image "abc") "p" ⟨0, [], []⟩ =
      (some "data:image/png;base64,abc", ⟨1, ["p"], []⟩) := by
  refine ⟨?_, ?_, ?_⟩
  · exact (generateImage_retry_spec
      (fun _ => ImageCallResult.throws "Rpc failed due to xhr error") "p"
      ⟨0, [], []⟩).2.1 _ _ _ rfl (by decide) rfl (by decide) rfl (by decide)
  · exact (generateImage_retry_spec
      (fun _ => ImageCallResult.throws "quota exceeded") "p"
      ⟨0, [], []⟩).2.2.1 _ rfl (by decide)
  · exact (generateImage_retry_spec
      (fun _ => ImageCallResult.image "abc") "p" ⟨0, [], []⟩).2.2.2.2.2.1 _ rfl

/-- C1: `generateContextImage` attempts image generation in the fixed
three-stage order of the fallback chain, stopping at the first success:
detailed prefix + initial prompt, then (only if that yielded no image) the
context-derived prompt from the second text-model call when its trimmed
text is non-empty, then the static fallback prompt; if all fail the result
is null — its result equals the spec-side chain for every environment. -/
theorem generateContextImage_fallback_chain
    (params : GenerateContextImageParams) (env : ContextImageEnv) :
    (generateContextImage params env).result = fallbackChainSpec params env := by
  cases hL : params.language <;>
  · simp only [generateContextImage, fallbackChainSpec, hL]
    generalize generateImage env.imageCalls _ initImageGenState = r1
    obtain ⟨i1, s1⟩ := r1
    cases i1 with
    | some u => rfl
    | none =>
      cases hfb : env.fallbackPromptCall with
      | throws e => rfl
      | ok t =>
        dsimp only
        split_ifs with ht
        · generalize generateImage env.imageCalls _ s1 = r2
          obtain ⟨i2, s2⟩ := r2
          cases i2 with
          | some u => rfl
          | none => rfl
        · rfl

/-! ## Theorems for the keyed record operations -/

theorem recordLookup_set_self {α : Type} (m : List (Nat × α)) (key : Nat) (v : α) :
    recordLookup (recordSet m key v) key = some v := by
  induction m with
  | nil => simp [recordSet, recordLookup]
  | cons hd tl ih =>
    obtain ⟨k, w⟩ := hd
    by_cases hk : k = key
    · simp [recordSet, recordLookup, hk]
    · simp [recordSet, recordLookup, hk, ih]

theorem recordLookup_set_ne {α : Type} (m : List (Nat × α)) (key k : Nat) (v : α)
    (h : k ≠ key) :
    recordLookup (recordSet m key v) k = recordLookup m k := by
  induction m with
  | nil => simp [recordSet, recordLookup, Ne.symm h]
  | cons hd tl ih =>
    obtain ⟨k1, w⟩ := hd
    by_cases hk1 : k1 = key
    · subst hk1
      simp [recordSet, recordLookup, Ne.symm h]
    · by_cases hk2 : k1 = k
      · subst hk2
        simp [recordSet, recordLookup, h]
      · simp [recordSet, recordLookup, hk1, hk2, ih]

theorem recordSet_set_same {α : Type} (m : List (Nat × α)) (key : Nat) (v1 v2 : α) :
    recordSet (recordSet m key v1) key v2 = recordSet m key v2 := by
  induction m with
  | nil => simp [recordSet]
  | cons hd tl ih =>
    obtain ⟨k, w⟩ := hd
    by_cases hk : k = key
    · simp [recordSet, hk]
    · simp [recordSet, hk, ih]

theorem recordLookup_erase_self {α : Type} (m : List (Nat × α)) (key : Nat) :
    recordLookup (recordErase m key) key = none := by
  induction m with
  | nil => simp [recordErase, recordLookup]
  | cons hd tl ih =>
    obtain ⟨k, w⟩ := hd
    by_cases hk : k = key
    · simp [recordErase, hk, ih]
    · simp [recordErase, recordLookup, hk, ih]

theorem recordLookup_erase_ne {α : Type} (m : List (Nat × α)) (key k : Nat)
    (h : k ≠ key) :
    recordLookup (recordErase m key) k = recordLookup m k := by
  induction m with
  | nil => simp [recordErase]
  | cons hd tl ih =>
    obtain ⟨k1, w⟩ := hd
    by_cases hk1 : k1 = key
    · subst hk1
      simp [recordErase, recordLookup, Ne.symm h, ih]
    · by_cases hk2 : k1 = k
      · subst hk2
        simp [recordErase, recordLookup, hk1]
      · simp [recordErase, recordLookup, hk1, hk2, ih]

/-- C6: `saveArchivedReading day r` stores `r` under key `day`, leaves the
archived reading of every other day unchanged, and a later save for the
same day overwrites the earlier record. -/
theorem saveArchivedReading_spec (store : ArchiveStore) (day : Nat)
    (r : ArchivedReading) :
    recordLookup (saveArchivedReading store day r) day = some r ∧
    (∀ k, k ≠ day →
      recordLookup (saveArchivedReading store day r) k = recordLookup store k) ∧
    (∀ r2, saveArchivedReading (saveArchivedReading store day r) day r2 =
      saveArchivedReading store day r2) := by
  refine ⟨recordLookup_set_self store day r,
    fun k hk => recordLookup_set_ne store day k r hk,
    fun r2 => recordSet_set_same store day r r2⟩

/-- Witness for C6 at a concrete store: saving day 2 stores the record,
keeps day 1 intact, and a second save for day 2 overwrites the first. -/
theorem saveArchivedReading_spec_witness :
    recordLookup (saveArchivedReading [(1, sampleArchived 1)] 2 (sampleArchived 2)) 2 =
      some (sampleArchived 2) ∧
    recordLookup (saveArchivedReading [(1, sampleArchived 1)] 2 (sampleArchived 2)) 1 =
      recordLookup [(1, sampleArchived 1)] 1 ∧
    saveArchivedReading
        (saveArchivedReading [(1, sampleArchived 1)] 2 (sampleArchived 2)) 2
        (sampleArchived 3) =
      saveArchivedReading [(1, sampleArchived 1)] 2 (sampleArchived 3) := by
  have h := saveArchivedReading_spec [(1, sampleArchived 1)] 2 (sampleArchived 2)
  exact ⟨h.1, h.2.1 1 (by decide), h.2.2 (sampleArchived 3)⟩

/-- C7 counterexample: when day 1 already has status `good`, toggling
`good` twice leaves the day with status `good` — not with no status, as the
claim's final clause would require. -/
theorem handleStatusChange_double_toggle_cex :
    recordLookup
        (handleStatusChange
          (handleStatusChange [(1, MeditationStatus.good)] 1 .good) 1 .good) 1 =
      some MeditationStatus.good := by
  decide

/-- C7 (amended): the meditation store maps days only to the three-value
enumeration; `handleStatusChange day s` removes the day's entry when its
current value equals `s`, otherwise sets it to `s`, and leaves every other
day unchanged; toggling the same status twice returns the day to having no
status provided the day's current value was not already `s`. -/
theorem handleStatusChange_spec (m : MeditationRecord) (day : Nat)
    (status : MeditationStatus) :
    (∀ v, recordLookup m day = some v →
      (v = .good ∨ v = .ok ∨ v = .bad)) ∧
    (recordLookup m day = some status →
      handleStatusChange m day status = recordErase m day) ∧
    (recordLookup m day ≠ some status →
      handleStatusChange m day status = recordSet m day status) ∧
    (∀ k, k ≠ day →
      recordLookup (handleStatusChange m day status) k = recordLookup m k) ∧
    (recordLookup m day ≠ some status →
      recordLookup
        (handleStatusChange (handleStatusChange m day status) day status) day =
      none) := by
  refine ⟨?_, ?_, ?_, ?_, ?_⟩
  · intro v _
    cases v <;> simp
  · intro h
    simp [handleStatusChange, h]
  · intro h
    simp [handleStatusChange, h]
  · intro k hk
    unfold handleStatusChange
    split_ifs with h
    · exact recordLookup_erase_ne m day k hk
    · exact recordLookup_set_ne m day k status hk
  · intro h
    have h1 : handleStatusChange m day status = recordSet m day status := by
      simp [handleStatusChange, h]
    rw [h1]
    unfold handleStatusChange
    rw [if_pos (recordLookup_set_self m day status)]
    exact recordLookup_erase_self (recordSet m day status) day

/-- Witness for C7 (amended) at concrete stores: remove-on-equal,
set-on-different, frame on another day, and the double toggle from a
day with no status. -/
theorem handleStatusChange_spec_witness :
    handleStatusChange [(1, MeditationStatus.good)] 1 .good =
      recordErase [(1, MeditationStatus.good)] 1 ∧
    handleStatusChange [(1, MeditationStatus.good)] 1 .ok =
      recordSet [(1, MeditationStatus.good)] 1 .ok ∧
    recordLookup (handleStatusChange [(1, MeditationStatus.good)] 2 .bad) 1 =
      recordLookup [(1, MeditationStatus.good)] 1 ∧
    recordLookup
        (handleStatusChange (handleStatusChange ([] : MeditationRecord) 3 .good) 3 .good) 3 =
      none := by
  refine ⟨?_, ?_, ?_, ?_⟩
  · exact (handleStatusChange_spec [(1, MeditationStatus.good)] 1 .good).2.1 (by decide)
  · exact (handleStatusChange_spec [(1, MeditationStatus.good)] 1 .ok).2.2.1 (by decide)
  · exact (handleStatusChange_spec [(1, MeditationStatus.good)] 2 .bad).2.2.2.1 1 (by decide)
  · exact (handleStatusChange_spec ([] : MeditationRecord) 3 .good).2.2.2.2 (by decide)

/-- C5: saving a non-empty diary entry (at least one field non-blank)
produces the saved list consisting of exactly one new entry — id the
current timestamp, the locale time string, the draft content — followed by
every previously saved entry unchanged; every previously saved entry is
still present after a save, and likewise the EvangelismMission plan save:
a plan non-blank after trimming prepends exactly one new entry and every
previously saved plan entry stays present. -/
theorem handleSave_spec (st : DiaryState) (now : Nat) (timeStr : String) :
    (diaryEntryEmpty st.currentEntry = false →
      (handleSave st now timeStr).savedEntries =
        ⟨now, timeStr, st.currentEntry⟩ :: st.savedEntries ∧
      (handleSave st now timeStr).savedEntries.length =
        st.savedEntries.length + 1) ∧
    (∀ e ∈ st.savedEntries, e ∈ (handleSave st now timeStr).savedEntries) ∧
    (∀ mst : MissionState,
      (jsTrim mst.currentPlan ≠ "" →
        (missionHandleSave mst now timeStr).savedEntries =
          (⟨now, timeStr, mst.currentPlan⟩ : SavedPlanEntry) :: mst.savedEntries ∧
        (missionHandleSave mst now timeStr).savedEntries.length =
          mst.savedEntries.length + 1) ∧
      ∀ e ∈ mst.savedEntries, e ∈ (missionHandleSave mst now timeStr).savedEntries) := by
  refine ⟨?_, ?_, ?_⟩
  · intro h
    constructor <;> simp [handleSave, h]
  · intro e he
    unfold handleSave
    split_ifs with h
    · exact he
    · exact List.mem_cons_of_mem _ he
  · intro mst
    constructor
    · intro h
      constructor <;> simp [missionHandleSave, h]
    · intro e he
      unfold missionHandleSave
      split_ifs with h
      · exact he
      · exact List.mem_cons_of_mem _ he

/-- Witness for C5 at a concrete state: a draft with one non-blank field is
saved on top of an existing entry, which stays present; a non-blank mission
plan is saved on top of an existing plan entry, which stays present. -/
theorem handleSave_spec_witness :
    (handleSave ⟨⟨"thanks", "", ""⟩, [⟨1, "08:00 AM", ⟨"a", "b", "c"⟩⟩]⟩ 5 "09:00 AM").savedEntries =
      [⟨5, "09:00 AM", ⟨"thanks", "", ""⟩⟩, ⟨1, "08:00 AM", ⟨"a", "b", "c"⟩⟩] ∧
    (⟨1, "08:00 AM", ⟨"a", "b", "c"⟩⟩ : SavedDiaryEntry) ∈
      (handleSave ⟨⟨"thanks", "", ""⟩, [⟨1, "08:00 AM", ⟨"a", "b", "c"⟩⟩]⟩ 5 "09:00 AM").savedEntries ∧
    (missionHandleSave ⟨"pray", [⟨2, "10:00 AM", "visit"⟩]⟩ 7 "11:00 AM").savedEntries =
      [⟨7, "11:00 AM", "pray"⟩, ⟨2, "10:00 AM", "visit"⟩] ∧
    (⟨2, "10:00 AM", "visit"⟩ : SavedPlanEntry) ∈
      (missionHandleSave ⟨"pray", [⟨2, "10:00 AM", "visit"⟩]⟩ 7 "11:00 AM").savedEntries := by
  have h := handleSave_spec ⟨⟨"thanks", "", ""⟩, [⟨1, "08:00 AM", ⟨"a", "b", "c"⟩⟩]⟩ 5 "09:00 AM"
  have hm := handleSave_spec ⟨⟨"thanks", "", ""⟩, []⟩ 7 "11:00 AM"
  refine ⟨(h.1 (by decide)).1, h.2.1 _ (by decide), ?_, ?_⟩
  · exact ((hm.2.2 ⟨"pray", [⟨2, "10:00 AM", "visit"⟩]⟩).1 (by decide)).1
  · exact (hm.2.2 ⟨"pray", [⟨2, "10:00 AM", "visit"⟩]⟩).2 _ (by decide)

/-! ## Theorems for per-call-site error handling -/

/-- C8: when the underlying model call throws, each generation entry point
converts the error at its own call site and makes exactly one call (no
retry): the prayer guide, sermon outline and evangelism tips return the
language-localized error string, `recommendMusic` the empty song list, and
`generateStoryKeywords` null. -/
theorem errorHandling_per_call_site (language : Language) (e : String)
    (envS : Nat → CallResult String)
    (envM : Nat → CallResult (Option (List Song)))
    (envK : Nat → CallResult (Option StoryKeywords))
    (hS : envS 0 = .throws e) (hM : envM 0 = .throws e) (hK : envK 0 = .throws e) :
    generatePrayerGuide language envS = (prayerGuideError language, 1) ∧
    generateSermonOutline language envS = (sermonOutlineError language, 1) ∧
    generateEvangelismTips language envS = (evangelismTipsError language, 1) ∧
    recommendMusic language envM = ([], 1) ∧
    generateStoryKeywords language envK = (none, 1) := by
  refine ⟨?_, ?_, ?_, ?_, ?_⟩ <;>
    simp [generatePrayerGuide, generateSermonOutline, generateEvangelismTips,
      recommendMusic, generateStoryKeywords, hS, hM, hK]

/-- Witness for C8 with concrete throwing environments in both languages. -/
theorem errorHandling_per_call_site_witness :
    generatePrayerGuide .en (fun _ => .throws "boom") = (prayerGuideError .en, 1) ∧
    generateSermonOutline .en (fun _ => .throws "boom") = (sermonOutlineError .en, 1) ∧
    generateEvangelismTips .ko (fun _ => .throws "boom") = (evangelismTipsError .ko, 1) ∧
    recommendMusic .en (fun _ => .throws "boom") = ([], 1) ∧
    generateStoryKeywords .en (fun _ => .throws "boom") = (none, 1) := by
  have h1 := errorHandling_per_call_site .en "boom" (fun _ => .throws "boom")
    (fun _ => .throws "boom") (fun _ => .throws "boom") rfl rfl rfl
  have h2 := errorHandling_per_call_site .ko "boom" (fun _ => .throws "boom")
    (fun _ => .throws "boom") (fun _ => .throws "boom") rfl rfl rfl
  exact ⟨h1.1, h1.2.1, h2.2.2.1, h1.2.2.2.1, h1.2.2.2.2⟩

/-! ## Theorems for the reading-content cache -/

/-- C9: the cache key is determined solely by the calendar date string and
the language — the key written on a cache miss with a successful API call
is exactly `readingCacheKey dateStr language` — and when a cache entry
exists for that key, `fetchContent` serves the cached passage, meditation
guide, context and intention without making a text-generation call and
without writing the cache. -/
theorem fetchContent_cache_spec (cache : String → Option CachedReadingData)
    (dateStr : String) (language : Language) (api : ApiOutcome) :
    (∀ d, cache (readingCacheKey dateStr language) = some d →
      fetchContent cache dateStr language api =
        { result := .served d.passage d.meditationGuide d.context d.intention
          textApiCalled := false
          imageGenStarted :=
            if d.imagePrompt ≠ "" then some (d.imagePrompt, d.intention) else none
          cacheWrite := none }) ∧
    (∀ d2, cache (readingCacheKey dateStr language) = none → api = .ok d2 →
      (fetchContent cache dateStr language api).textApiCalled = true ∧
      (fetchContent cache dateStr language api).cacheWrite =
        some (readingCacheKey dateStr language,
          ⟨d2.passage, d2.meditationGuide, d2.context, d2.intention,
            d2.imagePrompt, none⟩)) := by
  constructor
  · intro d hd
    simp [fetchContent, hd]
  · intro d2 hnone hok
    subst hok
    constructor <;> simp [fetchContent, hnone]

/-- Witness for C9: a concrete cache hit is served without an API call, and
a concrete miss writes under the date-and-language key. -/
theorem fetchContent_cache_spec_witness :
    fetchContent
        (fun k => if k = readingCacheKey "2025-01-01" .en
          then some ⟨"p", "g", "c", "i", "prompt", none⟩ else none)
        "2025-01-01" .en (.throws "x") =
      { result := .served "p" "g" "c" "i"
        textApiCalled := false
        imageGenStarted := some ("prompt", "i")
        cacheWrite := none } ∧
    (fetchContent (fun _ => none) "2025-01-01" .en
        (.ok ⟨"p2", "g2", "c2", "i2", "prompt2"⟩)).cacheWrite =
      some (readingCacheKey "2025-01-01" .en,
        ⟨"p2", "g2", "c2", "i2", "prompt2", none⟩) := by
  constructor
  · have h := (fetchContent_cache_spec
      (fun k => if k = readingCacheKey "2025-01-01" .en
        then some ⟨"p", "g", "c", "i", "prompt", none⟩ else none)
      "2025-01-01" .en (.throws "x")).1 ⟨"p", "g", "c", "i", "prompt", none⟩ (by simp)
    rw [h]
    simp
  · exact ((fetchContent_cache_spec (fun _ => none) "2025-01-01" .en
      (.ok ⟨"p2", "g2", "c2", "i2", "prompt2"⟩)).2
      ⟨"p2", "g2", "c2", "i2", "prompt2"⟩ rfl rfl).2

/-- C10 counterexample: a reading-cache record whose `imagePrompt` is empty
is served from the cache (no text-generation call) yet starts no image
generation, so image generation is not started on every load that hits the
text cache. -/
theorem fetchContent_fresh_image_cex :
    (fetchContent
        (fun k => if k = readingCacheKey "2025-01-01" .en
          then some ⟨"p", "g", "c", "i", "", none⟩ else none)
        "2025-01-01" .en (.throws "x")).textApiCalled = false ∧
    (fetchContent
        (fun k => if k = readingCacheKey "2025-01-01" .en
          then some ⟨"p", "g", "c", "i", "", none⟩ else none)
        "2025-01-01" .en (.throws "x")).result = .served "p" "g" "c" "i" ∧
    (fetchContent
        (fun k => if k = readingCacheKey "2025-01-01" .en
          then some ⟨"p", "g", "c", "i", "", none⟩ else none)
        "2025-01-01" .en (.throws "x")).imageGenStarted = none := by
  refine ⟨?_, ?_, ?_⟩ <;> rfl

/-- C10 (amended): every reading-cache record written to local storage has
`contextImageUrl` null — the generated image is never stored — and a fresh
image generation is started on every load whose record carries a non-empty
`imagePrompt`, including loads that hit the text cache. -/
theorem fetchContent_image_never_cached (cache : String → Option CachedReadingData)
    (dateStr : String) (language : Language) (api : ApiOutcome) :
    (∀ k rec, (fetchContent cache dateStr language api).cacheWrite = some (k, rec) →
      rec.contextImageUrl = none) ∧
    (∀ d, cache (readingCacheKey dateStr language) = some d → d.imagePrompt ≠ "" →
      (fetchContent cache dateStr language api).imageGenStarted =
        some (d.imagePrompt, d.intention)) ∧
    (∀ d2, cache (readingCacheKey dateStr language) = none → api = .ok d2 →
      d2.imagePrompt ≠ "" →
      (fetchContent cache dateStr language api).imageGenStarted =
        some (d2.imagePrompt, d2.intention)) := by
  refine ⟨?_, ?_, ?_⟩
  · intro k rec hw
    cases hc : cache (readingCacheKey dateStr language) with
    | some d => simp [fetchContent, hc] at hw
    | none =>
      cases api with
      | ok d2 =>
        simp [fetchContent, hc] at hw
        rw [← hw.2]
      | throws e => simp [fetchContent, hc] at hw
  · intro d hd hp
    simp [fetchContent, hd, hp]
  · intro d2 hnone hok hp
    subst hok
    simp [fetchContent, hnone, hp]

/-- Witness for C10 (amended): a concrete miss-and-succeed run writes a
record with null `contextImageUrl`, and concrete cache-hit and miss runs
with non-empty prompts start image generation. -/
theorem fetchContent_image_never_cached_witness :
    (⟨"p2", "g2", "c2", "i2", "prompt2", none⟩ : CachedReadingData).contextImageUrl = none ∧
    (fetchContent
        (fun k => if k = readingCacheKey "2025-01-01" .en
          then some ⟨"p", "g", "c", "i", "prompt", none⟩ else none)
        "2025-01-01" .en (.throws "x")).imageGenStarted = some ("prompt", "i") ∧
    (fetchContent (fun _ => none) "2025-01-01" .en
        (.ok ⟨"p2", "g2", "c2", "i2", "prompt2"⟩)).imageGenStarted =
      some ("prompt2", "i2") := by
  refine ⟨?_, ?_, ?_⟩
  · exact (fetchContent_image_never_cached (fun _ => none) "2025-01-01" .en
      (.ok ⟨"p2", "g2", "c2", "i2", "prompt2"⟩)).1
      (readingCacheKey "2025-01-01" .en) _ (by simp [fetchContent])
  · exact (fetchContent_image_never_cached
      (fun k => if k = readingCacheKey "2025-01-01" .en
        then some ⟨"p", "g", "c", "i", "prompt", none⟩ else none)
      "2025-01-01" .en (.throws "x")).2.1 ⟨"p", "g", "c", "i", "prompt", none⟩
      (by simp) (by decide)
  · exact (fetchContent_image_never_cached (fun _ => none) "2025-01-01" .en
      (.ok ⟨"p2", "g2", "c2", "i2", "prompt2"⟩)).2.2
      ⟨"p2", "g2", "c2", "i2", "prompt2"⟩ rfl rfl (by decide)

end BibleApp
